import Mathlib

/-!
Verification development for the Redmine → Azure DevOps migration tool.

The JavaScript sources (`field-mapper.js`, `migrate.js`, `ado-util.js`,
`redmine-util.js`) are shallowly embedded below.  JavaScript objects used as
string-keyed dictionaries (and the `Map` used as the issue-id map) are
modelled as association lists with JavaScript assignment semantics
(overwrite-in-place on an existing key, append otherwise).  JavaScript
truthiness on the values this code branches on is made explicit:
`undefined`/absent and `""` are falsy for strings, `undefined` and `0` are
falsy for numbers.  Fallible external calls are modelled as `Option`-valued
oracles; network errors of the happy-path HTTP wrappers are out of scope.
-/

namespace RM

/-- Association-list read, modelling JavaScript property access `m[k]`
(`undefined` becomes `none`) and `Map.prototype.get`. -/
def assocGet {κ : Type} {α : Type} [DecidableEq κ] : List (κ × α) → κ → Option α
  | [], _ => none
  | (k', v) :: rest, k => if k' = k then some v else assocGet rest k

/-- Association-list write, modelling JavaScript assignment `m[k] = v` and
`Map.prototype.set`: an existing key keeps its position and gets the new
value silently; a new key is appended. -/
def jsSet {κ : Type} {α : Type} [DecidableEq κ] : List (κ × α) → κ → α → List (κ × α)
  | [], k, v => [(k, v)]
  | (k', v') :: rest, k, v => if k' = k then (k, v) :: rest else (k', v') :: jsSet rest k v

/-- JavaScript truthiness filter for an optional string: `undefined` and the
empty string are falsy. -/
def truthyStr (o : Option String) : Option String :=
  o.bind (fun s => if s = "" then none else some s)

/-- JavaScript truthiness filter for an optional number (modelled as `Rat`):
`undefined` and `0` are falsy. -/
def truthyRat (o : Option Rat) : Option Rat :=
  o.bind (fun q => if q = 0 then none else some q)

/-- JavaScript truthiness filter for an optional id (a number): `undefined`
and `0` are falsy. -/
def truthyNat (o : Option Nat) : Option Nat :=
  o.bind (fun n => if n = 0 then none else some n)

/-- JavaScript `a || b` on optional ids, as in `relation.issue_id || relation.issue_to_id`. -/
def jsOrNat (a b : Option Nat) : Option Nat :=
  match a with
  | some n => if n = 0 then b else some n
  | none => b

/-- Optional-table lookup, modelling `table?.[k]`. -/
def optLookup {α : Type} (tbl : Option (List (String × α))) (k : String) : Option α :=
  tbl.bind (fun t => assocGet t k)

/-- A value stored in an ADO field set: a JavaScript string or number. -/
inductive JValue where
  | s (v : String)
  | n (v : Rat)
deriving DecidableEq, Repr

/-- The mapping configuration loaded from `field-mapping.yaml` (plus the
`REDMINE_URL` environment variable read by `field-mapper.js`).  Every table
the code reads through `?.` is optional; the `default` entries live inside
the same tables, keyed by the string `"default"`, exactly as in the YAML. -/
structure MapperConfig where
  work_item_types : Option (List (String × String)) := none
  status_mappings : Option (List (String × List (String × String))) := none
  priority_mappings : Option (List (String × Rat)) := none
  relation_mappings : Option (List (String × String)) := none
  custom_field_mappings : Option (List (String × String)) := none
  preserve_redmine_id : Bool := false
  add_redmine_link : Bool := false
  migrate_attachments : Option Bool := none
  migrate_comments : Option Bool := none
  migrate_relations : Option Bool := none
  migrate_subtasks : Option Bool := none
  delay_ms : Option Int := none
  batch_size : Option Nat := none
  redmine_env_url : String := ""

/-- Embeds `FieldMapper.mapWorkItemType`: tracker lookup, then the table's
`default` entry, then the hard-coded `"Issue"`, each step skipping falsy
(absent or empty) values. -/
def mapWorkItemType (cfg : MapperConfig) (redmineTracker : String) : String :=
  match truthyStr (optLookup cfg.work_item_types redmineTracker) with
  | some v => v
  | none =>
    match truthyStr (optLookup cfg.work_item_types "default") with
    | some v => v
    | none => "Issue"

/-- Embeds `FieldMapper.mapStatus`: per-work-item-type table first, then the
`default` table, then the hard-coded `"New"`.  A looked-up value is used
only when truthy (present and non-empty), as in the source's
`if (workItemMappings && workItemMappings[redmineStatus])`. -/
def mapStatus (cfg : MapperConfig) (redmineStatus workItemType : String) : String :=
  match (optLookup cfg.status_mappings workItemType).bind
      (fun tbl => truthyStr (assocGet tbl redmineStatus)) with
  | some v => v
  | none =>
    match (optLookup cfg.status_mappings "default").bind
        (fun tbl => truthyStr (assocGet tbl redmineStatus)) with
    | some v => v
    | none => "New"

/-- Embeds `FieldMapper.mapPriority`: direct lookup if truthy, else the table's
`default` entry if truthy, else the hard-coded `3`. -/
def mapPriority (cfg : MapperConfig) (redminePriority : String) : Rat :=
  match truthyRat (optLookup cfg.priority_mappings redminePriority) with
  | some v => v
  | none =>
    match truthyRat (optLookup cfg.priority_mappings "default") with
    | some v => v
    | none => 3

/-- Embeds `FieldMapper.mapRelationType`: lookup with fallback to the generic
related-link kind. -/
def mapRelationType (cfg : MapperConfig) (redmineRelationType : String) : String :=
  match truthyStr (optLookup cfg.relation_mappings redmineRelationType) with
  | some v => v
  | none => "System.LinkTypes.Related"

/-- Embeds `FieldMapper.shouldMigrateAttachments`: `migrate_attachments !== false`. -/
def shouldMigrateAttachments (cfg : MapperConfig) : Bool :=
  cfg.migrate_attachments != some false

/-- Embeds `FieldMapper.shouldMigrateComments`: `migrate_comments !== false`. -/
def shouldMigrateComments (cfg : MapperConfig) : Bool :=
  cfg.migrate_comments != some false

/-- Embeds `FieldMapper.shouldMigrateRelations`: `migrate_relations !== false`. -/
def shouldMigrateRelations (cfg : MapperConfig) : Bool :=
  cfg.migrate_relations != some false

/-- Embeds `FieldMapper.shouldMigrateSubtasks`: `migrate_subtasks !== false`. -/
def shouldMigrateSubtasks (cfg : MapperConfig) : Bool :=
  cfg.migrate_subtasks != some false

/-- Embeds `FieldMapper.getDelayMs`: `delay_ms || 100` — a missing value and a
configured `0` (both falsy) yield the default `100`. -/
def getDelayMs (cfg : MapperConfig) : Int :=
  match cfg.delay_ms with
  | some d => if d = 0 then 100 else d
  | none => 100

/-- Embeds `FieldMapper.getBatchSize`: `batch_size || 50`. -/
def getBatchSize (cfg : MapperConfig) : Nat :=
  match cfg.batch_size with
  | some b => if b = 0 then 50 else b
  | none => 50

/-- A Redmine issue as consumed by `FieldMapper.mapRedmineIssueToAdoFields`:
nested accessors such as `issue.tracker?.name` are flattened to the optional
string actually read. -/
structure RIssue where
  id : Nat := 0
  tracker : Option String := none
  subject : Option String := none
  description : Option String := none
  status : Option String := none
  priority : Option String := none
  assigned_to : Option String := none
  start_date : Option String := none
  due_date : Option String := none
  created_on : Option String := none
  updated_on : Option String := none
  closed_on : Option String := none
  estimated_hours : Option Rat := none
  done_ratio : Option Rat := none
  custom_fields : List (String × String) := []
deriving DecidableEq, Repr

/-- Conditional field emission: `optSet o m k f` performs
`if (o) m[k] = f o` — the shape of every guarded scalar copy in
`mapRedmineIssueToAdoFields`. -/
def optSet {α : Type} (o : Option α) (m : List (String × JValue)) (k : String)
    (f : α → JValue) : List (String × JValue) :=
  match o with
  | some a => jsSet m k (f a)
  | none => m

/-- The custom-field loop of `mapRedmineIssueToAdoFields`: for each source
custom field, if a target name is configured (truthy) and the value is
truthy, assign it. -/
def applyCustomFields (cfg : MapperConfig) (cfs : List (String × String))
    (m : List (String × JValue)) : List (String × JValue) :=
  cfs.foldl (fun acc cf =>
    match truthyStr (optLookup cfg.custom_field_mappings cf.1) with
    | some adoFieldName => if cf.2 = "" then acc else jsSet acc adoFieldName (.s cf.2)
    | none => acc) m

/-- Embeds `FieldMapper.mapRedmineIssueToAdoFields`, line for line: work-item type
resolution, unconditional title (with `"Untitled"` fallback) and composed
description, then each guarded scalar copy, then the custom-field loop. -/
def mapRedmineIssueToAdoFields (cfg : MapperConfig) (issue : RIssue) :
    String × List (String × JValue) :=
  let workItemType := mapWorkItemType cfg ((truthyStr issue.tracker).getD "Task")
  let fields : List (String × JValue) := []
  let fields := jsSet fields "System.Title" (.s ((truthyStr issue.subject).getD "Untitled"))
  let description :=
    if cfg.preserve_redmine_id then
      "<b>Migrated from Redmine Issue #" ++ toString issue.id ++ "</b><br/>"
    else ""
  let redmineUrl := cfg.redmine_env_url ++ "/issues/" ++ toString issue.id
  let description := description ++
    (if cfg.add_redmine_link && issue.id != 0 then
      "<b>Original URL:</b> <a href=\"" ++ redmineUrl ++ "\">" ++ redmineUrl ++
        "</a><br/><br/>" ++ "<hr/><br/>"
    else "")
  let description := description ++ (truthyStr issue.description).getD ""
  let fields := jsSet fields "System.Description" (.s description)
  let fields := optSet (truthyStr issue.status) fields "System.State"
    (fun st => .s (mapStatus cfg st workItemType))
  let fields := optSet (truthyStr issue.priority) fields "Microsoft.VSTS.Common.Priority"
    (fun p => .n (mapPriority cfg p))
  let fields := optSet (truthyStr issue.assigned_to) fields "System.AssignedTo" .s
  let fields := optSet (truthyStr issue.start_date) fields "Microsoft.VSTS.Scheduling.StartDate" .s
  let fields := optSet (truthyStr issue.due_date) fields "Microsoft.VSTS.Scheduling.DueDate" .s
  let fields := optSet (truthyStr issue.created_on) fields "System.CreatedDate" .s
  let fields := optSet (truthyStr issue.updated_on) fields "System.ChangedDate" .s
  let fields := optSet (truthyStr issue.closed_on) fields "Microsoft.VSTS.Common.ClosedDate" .s
  let fields := optSet (truthyRat issue.estimated_hours) fields
    "Microsoft.VSTS.Scheduling.OriginalEstimate" .n
  let fields := optSet issue.done_ratio fields "Microsoft.VSTS.Scheduling.CompletedWork" .n
  let fields := applyCustomFields cfg issue.custom_fields fields
  (workItemType, fields)

/-- A target field set contains a key iff a lookup on it succeeds. -/
def hasKey (m : List (String × JValue)) (k : String) : Bool :=
  (assocGet m k).isSome

/-- A Redmine issue relation as delivered by the API: both endpoint ids (one
of which is the issue the relation was fetched on) and the relation kind. -/
structure Relation where
  issue_id : Option Nat := none
  issue_to_id : Option Nat := none
  relation_type : String := ""
deriving DecidableEq, Repr

/-- An issue as consumed by `migrate.js`: the mapped scalar fields plus the
parent id (`issue.parent?.id`), the relation list, and the journal notes and
attachment file names whose migration is side-effect-only. -/
structure MIssue extends RIssue where
  parent : Option Nat := none
  relations : List Relation := []
  journals : List String := []
  attachments : List String := []
deriving DecidableEq, Repr

/-- A typed link created in Azure DevOps by `AdoUtil.createLink`. -/
structure Link where
  fromId : Nat
  toId : Nat
  linkType : String
  comment : String
deriving DecidableEq, Repr

/-- Embeds `AdoUtil.createLink` (ado-util.js, lines 147-175): rejects a self-link
(`sourceWorkItemId === targetWorkItemId`) returning `false` and creating
nothing; otherwise posts one relation patch (with the `comment || ...`
fallback on the attribute comment) and returns `true`.  The happy HTTP path
is modelled; a network error only changes the returned flag, never the
created link. -/
def createLink (sourceWorkItemId targetWorkItemId : Nat) (linkType comment : String) :
    Bool × Option Link :=
  if sourceWorkItemId = targetWorkItemId then (false, none)
  else
    (true, some { fromId := sourceWorkItemId, toId := targetWorkItemId, linkType := linkType,
                  comment := if comment = "" then "Link: " ++ linkType else comment })

/-- Embeds `RedmineUtil.getParentId`: `issue.parent?.id || null`. -/
def getParentId (i : MIssue) : Option Nat :=
  match i.parent with
  | some p => if p = 0 then none else some p
  | none => none

/-- The body of the inner relation loop of `migrateRelations` (migrate.js,
lines 107-121): resolve `relation.issue_id || relation.issue_to_id` through
the issue-id map, and if the result is truthy create a typed link with the
mapped relation kind; otherwise produce nothing. -/
def relationLinks (cfg : MapperConfig) (idMap : List (Nat × Nat)) (sourceAdoId : Nat)
    (r : Relation) : List Link :=
  let targetRedmineId := jsOrNat r.issue_id r.issue_to_id
  match truthyNat (targetRedmineId.bind (assocGet idMap)) with
  | some targetAdoId =>
    (createLink sourceAdoId targetAdoId (mapRelationType cfg r.relation_type)
      (r.relation_type ++ " relationship from Redmine")).2.toList
  | none => []

/-- One iteration of `migrateRelations` (migrate.js, lines 86-123): skip the
issue when its own id is not (truthily) in the map; otherwise create the
parent hierarchy link when enabled and resolvable, then process every
relation. -/
def migrateRelationsIssue (cfg : MapperConfig) (idMap : List (Nat × Nat)) (i : MIssue) :
    List Link :=
  match truthyNat (assocGet idMap i.id) with
  | none => []
  | some sourceAdoId =>
    let parentLinks :=
      if shouldMigrateSubtasks cfg then
        match getParentId i with
        | some parentId =>
          match truthyNat (assocGet idMap parentId) with
          | some parentAdoId =>
            (createLink sourceAdoId parentAdoId "System.LinkTypes.Hierarchy-Reverse"
              "Parent-Child relationship from Redmine").2.toList
          | none => []
        | none => []
      else []
    let relLinks :=
      if shouldMigrateRelations cfg then
        (i.relations.map (relationLinks cfg idMap sourceAdoId)).flatten
      else []
    parentLinks ++ relLinks

/-- Embeds `migrateRelations`: the phase-4 pass over all fetched issues. -/
def migrateRelations (cfg : MapperConfig) (idMap : List (Nat × Nat))
    (issues : List MIssue) : List Link :=
  (issues.map (migrateRelationsIssue cfg idMap)).flatten

/-- Observable target-system effects of a run, in order of occurrence.
Comment and attachment effects carry no payload detail a claim depends on;
what matters is that they are distinct from link creation. -/
inductive Ev where
  | nodeAttempt (redmineId : Nat) (result : Option Nat)
  | commentAdd (adoId : Nat)
  | attachAdd (adoId : Nat) (filename : String)
  | linkCreate (l : Link)
deriving DecidableEq, Repr

/-- Embeds `migrateIssue` (migrate.js, lines 26-49): transform the issue, attempt
node creation (`create` is the deterministic oracle for
`AdoUtil.createWorkItem`), and on success record the mapping and append the
comment/attachment effects gated by their toggles. -/
def migrateIssue (cfg : MapperConfig) (create : String → List (String × JValue) → Option Nat)
    (idMap : List (Nat × Nat)) (i : MIssue) : List (Nat × Nat) × List Ev :=
  let tf := mapRedmineIssueToAdoFields cfg i.toRIssue
  match create tf.1 tf.2 with
  | none => (idMap, [.nodeAttempt i.id none])
  | some w =>
    let idMap := jsSet idMap i.id w
    let evC := if shouldMigrateComments cfg && !i.journals.isEmpty then
        i.journals.map (fun _ => Ev.commentAdd w)
      else []
    let evA := if shouldMigrateAttachments cfg && !i.attachments.isEmpty then
        i.attachments.map (Ev.attachAdd w)
      else []
    (idMap, .nodeAttempt i.id (some w) :: (evC ++ evA))

/-- The batch slicing of `migrateAllIssues`
(`for (let i = 0; i < n; i += batchSize) slice(i, i + batchSize)`).  The
source's `getBatchSize` never returns `0`; the `b = 0` branch only keeps the
recursion well-founded on that unreachable input. -/
def chunksOf {α : Type} (b : Nat) (l : List α) : List (List α) :=
  match l with
  | [] => []
  | x :: xs =>
    if b = 0 then [x :: xs]
    else (x :: xs).take b :: chunksOf b ((x :: xs).drop b)
termination_by l.length
decreasing_by
  simp only [List.length_drop, List.length_cons]
  omega

/-- Phase 2 of `migrateAllIssues` (migrate.js, lines 173-183): the batched,
strictly sequential node-creation loop, threading the issue-id map and
accumulating the effect trace. -/
def createNodes (cfg : MapperConfig) (create : String → List (String × JValue) → Option Nat)
    (issues : List MIssue) : List (Nat × Nat) × List Ev :=
  (chunksOf (getBatchSize cfg) issues).foldl
    (fun st batch => batch.foldl
      (fun st i =>
        let r := migrateIssue cfg create st.1 i
        (r.1, st.2 ++ r.2)) st)
    ([], [])

/-- The effect trace of a full-batch run (migrate.js, `migrateAllIssues`,
lines 147-203): the node-creation phase over all fetched (detailed) issues,
followed by the relation-resolution phase over the same issues with the map
the first phase built. -/
def migrateAllIssuesTrace (cfg : MapperConfig)
    (create : String → List (String × JValue) → Option Nat)
    (issues : List MIssue) : List Ev :=
  let st := createNodes cfg create issues
  st.2 ++ (migrateRelations cfg st.1 issues).map Ev.linkCreate

/-- The paginated Redmine issue listing as seen by
`RedmineUtil.getAllIssues`: the page served at a given offset, and the
`total_count` the server reports. -/
structure RSource where
  page : Nat → List Nat
  total : Nat

/-- The `while (hasMore)` loop of `RedmineUtil.getAllIssues` (lines 40-57),
with explicit fuel: fetch the page at the current offset, append it, stop
when the page is short of the requested `limit` of 100 or the accumulated
count has reached the reported total, else advance the offset by 100. -/
def getAllIssuesGo (src : RSource) : Nat → Nat → List Nat → Option (List Nat)
  | 0, _, _ => none
  | fuel + 1, offset, acc =>
    let issues := src.page offset
    let acc2 := acc ++ issues
    if issues.length < 100 ∨ src.total ≤ acc2.length then some acc2
    else getAllIssuesGo src fuel (offset + 100) acc2

/-- Embeds `RedmineUtil.getAllIssues`: run the pagination loop from offset `0` with
an empty accumulator. -/
def getAllIssues (src : RSource) (fuel : Nat) : Option (List Nat) :=
  getAllIssuesGo src fuel 0 []

/-- The concatenation of the first `n` pages (offsets `0, 100, ...`). -/
def pagesUpTo (src : RSource) (n : Nat) : List Nat :=
  ((List.range n).map (fun j => src.page (100 * j))).flatten

/-- The loop's stopping condition at iteration `k`: the page fetched at
offset `100 * k` is shorter than the requested page size, or the cumulative
count including it reaches the reported total. -/
def stopsAt (src : RSource) (k : Nat) : Prop :=
  (src.page (100 * k)).length < 100 ∨ src.total ≤ (pagesUpTo src (k + 1)).length

instance (src : RSource) (k : Nat) : Decidable (stopsAt src k) := by
  unfold stopsAt; infer_instance

/-! ## Basic lemmas about the JavaScript map model -/

theorem assocGet_jsSet {κ α : Type} [DecidableEq κ] (m : List (κ × α)) (k k' : κ) (v : α) :
    assocGet (jsSet m k v) k' = if k = k' then some v else assocGet m k' := by
  induction m with
  | nil => simp [jsSet, assocGet]
  | cons p rest ih =>
    obtain ⟨k0, v0⟩ := p
    simp only [jsSet, assocGet]
    by_cases h : k0 = k
    · subst h
      simp only [if_pos rfl, assocGet]
      by_cases hkk : k0 = k' <;> simp [hkk]
    · simp only [if_neg h, assocGet, ih]
      by_cases h' : k0 = k'
      · subst h'
        have hne : ¬ k = k0 := fun hh => h hh.symm
        simp [hne]
      · simp [h']

theorem assocGet_optSet {α : Type} (o : Option α) (m : List (String × JValue))
    (k k' : String) (f : α → JValue) :
    assocGet (optSet o m k f) k' =
      if k = k' then (o.map f).or (assocGet m k') else assocGet m k' := by
  cases o with
  | none => simp [optSet]
  | some a => simp [optSet, assocGet_jsSet]

theorem assocGet_applyCustomFields (cfg : MapperConfig) (cfs : List (String × String))
    (K : String)
    (h : ∀ p ∈ cfs, ∀ t, truthyStr (optLookup cfg.custom_field_mappings p.1) = some t → t ≠ K) :
    ∀ m, assocGet (applyCustomFields cfg cfs m) K = assocGet m K := by
  induction cfs with
  | nil => intro m; rfl
  | cons cf rest ih =>
    intro m
    have hrest := fun p hp => h p (List.mem_cons_of_mem _ hp)
    have hstep :
        assocGet (match truthyStr (optLookup cfg.custom_field_mappings cf.1) with
          | some adoFieldName => if cf.2 = "" then m else jsSet m adoFieldName (.s cf.2)
          | none => m) K = assocGet m K := by
      cases hl : truthyStr (optLookup cfg.custom_field_mappings cf.1) with
      | none => rfl
      | some t =>
        have ht : t ≠ K := h cf (List.mem_cons_self _ _) t hl
        by_cases hv : cf.2 = "" <;> simp [hv, assocGet_jsSet, ht]
    calc assocGet (applyCustomFields cfg (cf :: rest) m) K
        = assocGet (applyCustomFields cfg rest
            (match truthyStr (optLookup cfg.custom_field_mappings cf.1) with
              | some adoFieldName => if cf.2 = "" then m else jsSet m adoFieldName (.s cf.2)
              | none => m)) K := rfl
      _ = assocGet m K := by rw [ih hrest]; exact hstep

theorem foldl_flatten {α β : Type} (f : β → α → β) (L : List (List α)) (b : β) :
    L.flatten.foldl f b = L.foldl (fun s l => l.foldl f s) b := by
  induction L generalizing b with
  | nil => rfl
  | cons l L ih => simp [List.foldl_append, ih]

theorem chunksOf_flatten {α : Type} (b : Nat) (l : List α) : (chunksOf b l).flatten = l := by
  induction l using chunksOf.induct (b := b) with
  | case1 => simp [chunksOf]
  | case2 x xs hb => simp [chunksOf, hb]
  | case3 x xs hb ih =>
    rw [chunksOf]
    simp only [if_neg hb, List.flatten_cons, ih, List.take_append_drop]

end RM

namespace RM

/-- C6: for every id X and link kind, `createLink(X, X, kind, comment)`
creates no link and reports failure. -/
theorem createLink_self_rejected (x : Nat) (linkType comment : String) :
    createLink x x linkType comment = (false, none) := by
  simp [createLink]

/-- C9: `getDelayMs` returns the positive default 100 when no delay is
configured, never returns zero, and a configured delay of 0 also yields 100. -/
theorem getDelayMs_never_zero (cfg : MapperConfig) :
    getDelayMs cfg ≠ 0 ∧
    (cfg.delay_ms = none → getDelayMs cfg = 100) ∧
    (cfg.delay_ms = some 0 → getDelayMs cfg = 100) := by
  unfold getDelayMs
  cases hd : cfg.delay_ms with
  | none => simp
  | some d => by_cases h0 : d = 0 <;> simp [h0]

/-- C9 witness: a configured delay of 0 yields 100, which is nonzero. -/
theorem getDelayMs_never_zero_witness :
    getDelayMs { delay_ms := some 0 } = 100 ∧ getDelayMs { delay_ms := some 0 } ≠ 0 :=
  ⟨(getDelayMs_never_zero { delay_ms := some 0 }).2.2 rfl,
   (getDelayMs_never_zero { delay_ms := some 0 }).1⟩

theorem assocGet_foldl_jsSet_not_mem (ps : List (Nat × Nat)) (k : Nat)
    (h : k ∉ ps.map Prod.fst) :
    ∀ m, assocGet (ps.foldl (fun m p => jsSet m p.1 p.2) m) k = assocGet m k := by
  induction ps with
  | nil => intro m; rfl
  | cons p rest ih =>
    intro m
    simp only [List.map_cons, List.mem_cons, not_or] at h
    simp only [List.foldl_cons]
    rw [ih h.2, assocGet_jsSet, if_neg (fun hh => h.1 hh.symm)]

/-- C2 counterexample: inserting a source id that is already present does
not fail — `Map.set` silently overwrites the previous target id. -/
theorem idMap_duplicate_overwrites_cex :
    jsSet (jsSet ([] : List (Nat × Nat)) 1 10) 1 20 = [(1, 20)] ∧
    assocGet (jsSet (jsSet ([] : List (Nat × Nat)) 1 10) 1 20) 1 = some 20 ∧
    assocGet (jsSet (jsSet ([] : List (Nat × Nat)) 1 10) 1 20) 1 ≠ some 10 := by
  decide

theorem assocGet_foldl_jsSet_mem (ps : List (Nat × Nat))
    (hnd : (ps.map Prod.fst).Nodup) (k v : Nat) (hmem : (k, v) ∈ ps) :
    ∀ m, assocGet (ps.foldl (fun m p => jsSet m p.1 p.2) m) k = some v := by
  induction ps with
  | nil => cases hmem
  | cons p rest ih =>
    intro m
    simp only [List.map_cons, List.nodup_cons] at hnd
    simp only [List.foldl_cons]
    rcases List.mem_cons.mp hmem with heq | hmem'
    · subst heq
      rw [assocGet_foldl_jsSet_not_mem rest k hnd.1, assocGet_jsSet, if_pos rfl]
    · exact ih hnd.2 hmem' _

/-- C2 (amended): a `set` on an already-present source id silently
overwrites it (the map afterwards returns the new target), and for every
insertion sequence with pairwise-distinct source ids a lookup of an
inserted id returns exactly the target it was inserted with. -/
theorem idMap_put_get (ps : List (Nat × Nat)) (k v : Nat)
    (hnd : (ps.map Prod.fst).Nodup) (hmem : (k, v) ∈ ps) :
    assocGet (ps.foldl (fun m p => jsSet m p.1 p.2) []) k = some v ∧
    (∀ (m : List (Nat × Nat)) (k' v' : Nat), assocGet (jsSet m k' v') k' = some v') := by
  refine ⟨assocGet_foldl_jsSet_mem ps hnd k v hmem [], ?_⟩
  intro m k' v'
  rw [assocGet_jsSet, if_pos rfl]

/-- C2 witness: building the map from distinct pairs and reading one back. -/
theorem idMap_put_get_witness :
    assocGet ([(1, 501), (2, 502)].foldl (fun m p => jsSet m p.1 p.2) []) 2 = some 502 :=
  (idMap_put_get [(1, 501), (2, 502)] 2 502 (by decide) (by decide)).1

end RM

namespace RM

/-- C4: `mapStatus` follows the degradation order specific table → default
table → built-in fallback: a status unmapped under its type (no usable
specific entry) but present in the default table with a usable (non-empty)
value yields that default-table value, and a status absent from both tables
yields exactly `"New"`.  The non-emptiness side conditions mirror the
source's JavaScript truthiness tests on the looked-up values. -/
theorem mapStatus_fallback_order (cfg : MapperConfig) (st ty : String) :
    (∀ (dtbl : List (String × String)) (v : String),
      (optLookup cfg.status_mappings ty).bind (fun tbl => assocGet tbl st) = none →
      optLookup cfg.status_mappings "default" = some dtbl →
      assocGet dtbl st = some v → v ≠ "" →
      mapStatus cfg st ty = v) ∧
    ((optLookup cfg.status_mappings ty).bind (fun tbl => assocGet tbl st) = none →
      (optLookup cfg.status_mappings "default").bind (fun tbl => assocGet tbl st) = none →
      mapStatus cfg st ty = "New") := by
  constructor
  · intro dtbl v h1 h2 h3 hv
    unfold mapStatus
    cases hsp : optLookup cfg.status_mappings ty with
    | none => simp [hsp, h2, h3, truthyStr, hv]
    | some tbl =>
      rw [hsp] at h1
      simp only [Option.some_bind] at h1
      simp [hsp, h1, h2, h3, truthyStr, hv]
  · intro h1 h2
    unfold mapStatus
    cases hsp : optLookup cfg.status_mappings ty with
    | none =>
      cases hdf : optLookup cfg.status_mappings "default" with
      | none => simp [hsp, hdf]
      | some dtbl =>
        rw [hdf] at h2
        simp only [Option.some_bind] at h2
        simp [hsp, hdf, h2, truthyStr]
    | some tbl =>
      rw [hsp] at h1
      simp only [Option.some_bind] at h1
      cases hdf : optLookup cfg.status_mappings "default" with
      | none => simp [hsp, hdf, h1, truthyStr]
      | some dtbl =>
        rw [hdf] at h2
        simp only [Option.some_bind] at h2
        simp [hsp, hdf, h1, h2, truthyStr]

/-- C4 witness: with only a default table, a status present there maps to
its default-table value, and an unknown status maps to `"New"`. -/
theorem mapStatus_fallback_order_witness :
    mapStatus { status_mappings := some [("default", [("Open", "Active")])] } "Open" "Issue"
      = "Active" ∧
    mapStatus { status_mappings := some [("default", [("Open", "Active")])] } "Closed" "Issue"
      = "New" :=
  ⟨(mapStatus_fallback_order _ "Open" "Issue").1 [("Open", "Active")] "Active"
      (by decide) (by decide) (by decide) (by decide),
   (mapStatus_fallback_order _ "Closed" "Issue").2 (by decide) (by decide)⟩

end RM

namespace RM

theorem assocGet_nil {k : Type} [DecidableEq k] {a : Type} (x : k) :
    assocGet ([] : List (k × a)) x = none := rfl

theorem applyCustomFields_cons (cfg : MapperConfig) (cf : String × String)
    (rest : List (String × String)) (m : List (String × JValue)) :
    applyCustomFields cfg (cf :: rest) m =
      applyCustomFields cfg rest
        (match truthyStr (optLookup cfg.custom_field_mappings cf.1) with
          | some adoFieldName => if cf.2 = "" then m else jsSet m adoFieldName (.s cf.2)
          | none => m) := rfl

theorem isSome_assocGet_jsSet (m : List (String × JValue)) (k K : String) (v : JValue)
    (h : (assocGet m K).isSome = true) : (assocGet (jsSet m k v) K).isSome = true := by
  rw [assocGet_jsSet]
  split <;> simp [h]

theorem isSome_assocGet_applyCustomFields (cfg : MapperConfig)
    (cfs : List (String × String)) (K : String) :
    ∀ m, (assocGet m K).isSome = true →
      (assocGet (applyCustomFields cfg cfs m) K).isSome = true := by
  induction cfs with
  | nil => intro m h; exact h
  | cons cf rest ih =>
    intro m h
    rw [applyCustomFields_cons]
    refine ih _ ?_
    cases hl : truthyStr (optLookup cfg.custom_field_mappings cf.1) with
    | none => exact h
    | some t =>
      by_cases hv : cf.2 = ""
      · simp [hv, h]
      · simp only [hv, if_neg]
        exact isSome_assocGet_jsSet _ _ _ _ h

/-- C3 (amended): all listed scalar fields except the title are emitted only
when the source value is present. -/
theorem scalar_fields_emission (cfg : MapperConfig) (issue : RIssue)
    (hcf : ∀ p ∈ issue.custom_fields, ∀ t,
      truthyStr (optLookup cfg.custom_field_mappings p.1) = some t →
      t ∉ (["System.AssignedTo", "Microsoft.VSTS.Scheduling.StartDate",
            "Microsoft.VSTS.Scheduling.DueDate", "System.CreatedDate", "System.ChangedDate",
            "Microsoft.VSTS.Common.ClosedDate", "Microsoft.VSTS.Scheduling.OriginalEstimate",
            "Microsoft.VSTS.Scheduling.CompletedWork"] : List String)) :
    hasKey (mapRedmineIssueToAdoFields cfg issue).2 "System.Title" = true ∧
    hasKey (mapRedmineIssueToAdoFields cfg issue).2 "System.AssignedTo"
      = (truthyStr issue.assigned_to).isSome ∧
    hasKey (mapRedmineIssueToAdoFields cfg issue).2 "Microsoft.VSTS.Scheduling.StartDate"
      = (truthyStr issue.start_date).isSome ∧
    hasKey (mapRedmineIssueToAdoFields cfg issue).2 "Microsoft.VSTS.Scheduling.DueDate"
      = (truthyStr issue.due_date).isSome ∧
    hasKey (mapRedmineIssueToAdoFields cfg issue).2 "System.CreatedDate"
      = (truthyStr issue.created_on).isSome ∧
    hasKey (mapRedmineIssueToAdoFields cfg issue).2 "System.ChangedDate"
      = (truthyStr issue.updated_on).isSome ∧
    hasKey (mapRedmineIssueToAdoFields cfg issue).2 "Microsoft.VSTS.Common.ClosedDate"
      = (truthyStr issue.closed_on).isSome ∧
    hasKey (mapRedmineIssueToAdoFields cfg issue).2 "Microsoft.VSTS.Scheduling.OriginalEstimate"
      = (truthyRat issue.estimated_hours).isSome ∧
    hasKey (mapRedmineIssueToAdoFields cfg issue).2 "Microsoft.VSTS.Scheduling.CompletedWork"
      = issue.done_ratio.isSome := by
  have hskip : ∀ K, K ∈ (["System.AssignedTo", "Microsoft.VSTS.Scheduling.StartDate",
      "Microsoft.VSTS.Scheduling.DueDate", "System.CreatedDate", "System.ChangedDate",
      "Microsoft.VSTS.Common.ClosedDate", "Microsoft.VSTS.Scheduling.OriginalEstimate",
      "Microsoft.VSTS.Scheduling.CompletedWork"] : List String) →
      ∀ m, assocGet (applyCustomFields cfg issue.custom_fields m) K = assocGet m K :=
    fun K hK m => assocGet_applyCustomFields cfg issue.custom_fields K
      (fun p hp t ht heq => hcf p hp t ht (heq ▸ hK)) m
  unfold hasKey mapRedmineIssueToAdoFields
  refine ⟨?_, ?_, ?_, ?_, ?_, ?_, ?_, ?_, ?_⟩
  · refine isSome_assocGet_applyCustomFields cfg issue.custom_fields _ _ ?_
    simp [assocGet_optSet, assocGet_jsSet, assocGet_nil]
  · rw [hskip _ (by decide)]
    simp [assocGet_optSet, assocGet_jsSet, assocGet_nil]
  · rw [hskip _ (by decide)]
    simp [assocGet_optSet, assocGet_jsSet, assocGet_nil]
  · rw [hskip _ (by decide)]
    simp [assocGet_optSet, assocGet_jsSet, assocGet_nil]
  · rw [hskip _ (by decide)]
    simp [assocGet_optSet, assocGet_jsSet, assocGet_nil]
  · rw [hskip _ (by decide)]
    simp [assocGet_optSet, assocGet_jsSet, assocGet_nil]
  · rw [hskip _ (by decide)]
    simp [assocGet_optSet, assocGet_jsSet, assocGet_nil]
  · rw [hskip _ (by decide)]
    simp [assocGet_optSet, assocGet_jsSet, assocGet_nil]
  · rw [hskip _ (by decide)]
    simp [assocGet_optSet, assocGet_jsSet, assocGet_nil]

/-- C3 counterexample: a record with an absent title source value still
yields a `System.Title` key (value `"Untitled"`), so the title is emitted
even when its source value is absent. -/
theorem scalar_fields_title_cex :
    ({} : RIssue).subject = none ∧
    hasKey (mapRedmineIssueToAdoFields {} {}).2 "System.Title" = true ∧
    assocGet (mapRedmineIssueToAdoFields {} {}).2 "System.Title" = some (.s "Untitled") := by
  decide

/-- C3 witness: an issue with an absent due date yields no due-date key,
while one with a due date does. -/
theorem scalar_fields_emission_witness :
    hasKey (mapRedmineIssueToAdoFields {} {}).2 "Microsoft.VSTS.Scheduling.DueDate" = false ∧
    hasKey (mapRedmineIssueToAdoFields {} { due_date := some "2024-01-31" }).2
      "Microsoft.VSTS.Scheduling.DueDate" = true :=
  ⟨(scalar_fields_emission {} {}
      (fun p hp _ _ => absurd hp (List.not_mem_nil p))).2.2.2.1,
   (scalar_fields_emission {} { due_date := some "2024-01-31" }
      (fun p hp _ _ => absurd hp (List.not_mem_nil p))).2.2.2.1⟩

/-- C10: the transformation treats zero asymmetrically — a zero effort
estimate (falsy in JavaScript) emits no original-estimate key, while a zero
completion ratio (checked only against null/undefined) emits the
completed-work key with value 0. -/
theorem zero_estimate_vs_zero_ratio (cfg : MapperConfig) (issue : RIssue)
    (hcf : ∀ p ∈ issue.custom_fields, ∀ t,
      truthyStr (optLookup cfg.custom_field_mappings p.1) = some t →
      t ≠ "Microsoft.VSTS.Scheduling.OriginalEstimate" ∧
      t ≠ "Microsoft.VSTS.Scheduling.CompletedWork") :
    (issue.estimated_hours = some 0 →
      hasKey (mapRedmineIssueToAdoFields cfg issue).2
        "Microsoft.VSTS.Scheduling.OriginalEstimate" = false) ∧
    (issue.done_ratio = some 0 →
      assocGet (mapRedmineIssueToAdoFields cfg issue).2
        "Microsoft.VSTS.Scheduling.CompletedWork" = some (.n 0)) := by
  constructor
  · intro h0
    have hsk := assocGet_applyCustomFields cfg issue.custom_fields
      "Microsoft.VSTS.Scheduling.OriginalEstimate" (fun p hp t ht => (hcf p hp t ht).1)
    unfold hasKey mapRedmineIssueToAdoFields
    rw [hsk]
    simp [assocGet_optSet, assocGet_jsSet, assocGet_nil, h0, truthyRat]
  · intro h0
    have hsk := assocGet_applyCustomFields cfg issue.custom_fields
      "Microsoft.VSTS.Scheduling.CompletedWork" (fun p hp t ht => (hcf p hp t ht).2)
    unfold mapRedmineIssueToAdoFields
    rw [hsk]
    simp [assocGet_optSet, assocGet_jsSet, assocGet_nil, h0]

/-- C10 witness: a record with both numbers zero has no original-estimate
key but a completed-work key with value 0. -/
theorem zero_estimate_vs_zero_ratio_witness :
    hasKey (mapRedmineIssueToAdoFields {} { estimated_hours := some 0, done_ratio := some 0 }).2
      "Microsoft.VSTS.Scheduling.OriginalEstimate" = false ∧
    assocGet (mapRedmineIssueToAdoFields {} { estimated_hours := some 0, done_ratio := some 0 }).2
      "Microsoft.VSTS.Scheduling.CompletedWork" = some (.n 0) :=
  ⟨(zero_estimate_vs_zero_ratio {} { estimated_hours := some 0, done_ratio := some 0 }
      (fun p hp _ _ => absurd hp (List.not_mem_nil p))).1 rfl,
   (zero_estimate_vs_zero_ratio {} { estimated_hours := some 0, done_ratio := some 0 }
      (fun p hp _ _ => absurd hp (List.not_mem_nil p))).2 rfl⟩

end RM

namespace RM

theorem relComment_ne_empty (rt : String) : rt ++ " relationship from Redmine" ≠ "" := by
  intro h
  have h2 := congrArg String.length h
  simp [String.length_append] at h2
  exact absurd h2.2 (by decide)

theorem truthyNat_eq_some {o : Option Nat} {x : Nat} :
    truthyNat o = some x ↔ o = some x ∧ x ≠ 0 := by
  cases o with
  | none => simp [truthyNat]
  | some n =>
    simp only [truthyNat, Option.some_bind, Option.some.injEq]
    by_cases h : n = 0
    · subst h
      simp
      omega
    · simp only [if_neg h, Option.some.injEq]
      constructor
      · rintro rfl
        exact ⟨rfl, h⟩
      · exact fun hx => hx.1

end RM

namespace RM

/-- C1 counterexample: on issue 1, the relation names the current record in
the "from" position (`issue_id = 1`) with non-self endpoint 2.  The id the
code resolves through the map is `issue_id || issue_to_id = 1` — the record
itself, not the non-self endpoint 2 — and although endpoint 2 is present in
the map no typed link is created (the self-link is rejected). -/
theorem relation_endpoint_cex :
    jsOrNat (some 1) (some 2) = some 1 ∧
    assocGet [(1, 501), (2, 502)] 2 = some 502 ∧
    migrateRelations {} [(1, 501), (2, 502)]
      [{ id := 1,
         relations := [{ issue_id := some 1, issue_to_id := some 2, relation_type := "relates" }] }]
      = [] := by
  decide

/-- C1 (amended): the id resolved for a relation is `issue_id` when truthy,
else `issue_to_id`.  When the current record sits in the "to" position this
is the non-self endpoint: if it is in the map a typed link with the mapped
kind is created, and if it is absent the relation is skipped.  When the
current record sits in the "from" position its own id is resolved and no
link results, because the self-link is rejected by `createLink`. -/
theorem relation_resolution_behavior (cfg : MapperConfig) (idMap : List (Nat × Nat))
    (i : MIssue) (r : Relation) (other sAdo : Nat) (rt : String)
    (hrel : shouldMigrateRelations cfg = true)
    (hirel : i.relations = [r])
    (hpar : getParentId i = none ∨ shouldMigrateSubtasks cfg = false)
    (hs : assocGet idMap i.id = some sAdo) (hs0 : sAdo ≠ 0)
    (hself0 : i.id ≠ 0) (hother0 : other ≠ 0) :
    (r = { issue_id := some i.id, issue_to_id := some other, relation_type := rt } →
      migrateRelationsIssue cfg idMap i = []) ∧
    (∀ oAdo, r = { issue_id := some other, issue_to_id := some i.id, relation_type := rt } →
      assocGet idMap other = some oAdo → oAdo ≠ 0 → oAdo ≠ sAdo →
      migrateRelationsIssue cfg idMap i =
        [{ fromId := sAdo, toId := oAdo, linkType := mapRelationType cfg rt,
           comment := rt ++ " relationship from Redmine" }]) ∧
    (r = { issue_id := some other, issue_to_id := some i.id, relation_type := rt } →
      assocGet idMap other = none →
      migrateRelationsIssue cfg idMap i = []) := by
  have hsrc : truthyNat (assocGet idMap i.id) = some sAdo := truthyNat_eq_some.mpr ⟨hs, hs0⟩
  have h3 : truthyNat (some sAdo) = some sAdo := by simp [truthyNat, hs0]
  refine ⟨?_, ?_, ?_⟩
  · rintro rfl
    have h1 : jsOrNat (some i.id) (some other) = some i.id := by simp [jsOrNat, hself0]
    rcases hpar with hp | hp <;>
      simp [migrateRelationsIssue, relationLinks, hsrc, hirel, hrel, hp, h1, hs, h3, createLink]
  · rintro oAdo rfl htgt ho0 hne
    have h1 : jsOrNat (some other) (some i.id) = some other := by simp [jsOrNat, hother0]
    have h3b : truthyNat (some oAdo) = some oAdo := by simp [truthyNat, ho0]
    have hsne : ¬ sAdo = oAdo := fun h => hne h.symm
    have hcne := relComment_ne_empty rt
    rcases hpar with hp | hp <;>
      simp [migrateRelationsIssue, relationLinks, hsrc, hirel, hrel, hp, h1, htgt, h3b,
        createLink, hsne, hcne]
  · rintro rfl htgt
    have h1 : jsOrNat (some other) (some i.id) = some other := by simp [jsOrNat, hother0]
    have h3c : truthyNat (none : Option Nat) = none := rfl
    rcases hpar with hp | hp <;>
      simp [migrateRelationsIssue, relationLinks, hsrc, hirel, hrel, hp, h1, htgt, h3c]

/-- C1 witness: issue 2 in the "to" position of a relation from issue 1;
both are mapped, so the typed link 502 → 501 with the generic related kind
is created. -/
theorem relation_resolution_behavior_witness :
    migrateRelationsIssue {} [(1, 501), (2, 502)]
      { id := 2,
        relations := [{ issue_id := some 1, issue_to_id := some 2, relation_type := "blocks" }] }
      = [{ fromId := 502, toId := 501, linkType := "System.LinkTypes.Related",
           comment := "blocks relationship from Redmine" }] :=
  (relation_resolution_behavior {} [(1, 501), (2, 502)]
      { id := 2,
        relations := [{ issue_id := some 1, issue_to_id := some 2, relation_type := "blocks" }] }
      { issue_id := some 1, issue_to_id := some 2, relation_type := "blocks" }
      1 502 "blocks" rfl rfl (Or.inl rfl) (by decide) (by decide) (by decide)
      (by decide)).2.1 501 rfl (by decide) (by decide) (by decide)

end RM

namespace RM

/-- C7: a relation whose target id was never inserted into the Identity Map
produces no link, raises no error (the embedding is total and takes the
skip branch), and the remaining relations are processed unchanged: the
issue's links equal those computed with that relation removed. -/
theorem relation_missing_target_drop (cfg : MapperConfig) (idMap : List (Nat × Nat))
    (i : MIssue) (pre post : List Relation) (r : Relation) (t : Nat)
    (hirel : i.relations = pre ++ r :: post)
    (ht : assocGet idMap t = none) (ht0 : t ≠ 0) (hi0 : i.id ≠ 0)
    (hends : (r.issue_id = some i.id ∧ r.issue_to_id = some t) ∨ r.issue_id = some t) :
    migrateRelationsIssue cfg idMap i =
      migrateRelationsIssue cfg idMap { i with relations := pre ++ post } := by
  have hid : ({ i with relations := pre ++ post } : MIssue).id = i.id := rfl
  have hpar : getParentId { i with relations := pre ++ post } = getParentId i := rfl
  unfold migrateRelationsIssue
  rw [hid, hpar]
  cases hsrc : truthyNat (assocGet idMap i.id) with
  | none => rfl
  | some sAdo =>
    obtain ⟨hs, hs0⟩ := truthyNat_eq_some.mp hsrc
    have hrlink : relationLinks cfg idMap sAdo r = [] := by
      rcases hends with ⟨hfrom, hto⟩ | hfrom
      · have h1 : jsOrNat r.issue_id r.issue_to_id = some i.id := by
          rw [hfrom]; simp [jsOrNat, hi0]
        have h3 : truthyNat (some sAdo) = some sAdo := by simp [truthyNat, hs0]
        simp [relationLinks, h1, hs, h3, createLink]
      · have h1 : jsOrNat r.issue_id r.issue_to_id = some t := by
          rw [hfrom]; simp [jsOrNat, ht0]
        have h3c : truthyNat (none : Option Nat) = none := rfl
        simp [relationLinks, h1, ht, h3c]
    have hrels : ({ i with relations := pre ++ post } : MIssue).relations = pre ++ post := rfl
    rw [hirel, hrels]
    cases hmr : shouldMigrateRelations cfg <;>
      simp [hmr, hrlink]

/-- C7 witness: a relation on issue 1 pointing at the never-migrated id 999
yields the same links as if the relation were absent (here: none at all). -/
theorem relation_missing_target_drop_witness :
    migrateRelationsIssue {} [(1, 501)]
      { id := 1,
        relations := [{ issue_id := some 999, issue_to_id := some 1, relation_type := "relates" }] }
      = migrateRelationsIssue {} [(1, 501)] { id := 1, relations := [] } :=
  relation_missing_target_drop {} [(1, 501)]
    { id := 1,
      relations := [{ issue_id := some 999, issue_to_id := some 1, relation_type := "relates" }] }
    [] [] { issue_id := some 999, issue_to_id := some 1, relation_type := "relates" } 999
    rfl (by decide) (by decide) (by decide) (Or.inr rfl)

end RM

namespace RM

theorem createNodes_eq_foldl (cfg : MapperConfig)
    (create : String → List (String × JValue) → Option Nat) (issues : List MIssue) :
    createNodes cfg create issues =
      issues.foldl (fun st i =>
        let r := migrateIssue cfg create st.1 i
        (r.1, st.2 ++ r.2)) ([], []) := by
  unfold createNodes
  rw [← foldl_flatten, chunksOf_flatten]

theorem migrateIssue_no_link (cfg : MapperConfig)
    (create : String → List (String × JValue) → Option Nat)
    (m : List (Nat × Nat)) (i : MIssue) (l : Link) :
    Ev.linkCreate l ∉ (migrateIssue cfg create m i).2 := by
  unfold migrateIssue
  cases hc : create (mapRedmineIssueToAdoFields cfg i.toRIssue).1
      (mapRedmineIssueToAdoFields cfg i.toRIssue).2 with
  | none => simp [hc]
  | some w =>
    simp only [hc, List.mem_cons, List.mem_append]
    rintro (h | h | h)
    · exact Ev.noConfusion h
    · split at h
      · obtain ⟨_, _, hh⟩ := List.mem_map.mp h
        exact Ev.noConfusion hh
      · exact List.not_mem_nil _ h
    · split at h
      · obtain ⟨_, _, hh⟩ := List.mem_map.mp h
        exact Ev.noConfusion hh
      · exact List.not_mem_nil _ h

theorem migrateIssue_node_attempt (cfg : MapperConfig)
    (create : String → List (String × JValue) → Option Nat)
    (m : List (Nat × Nat)) (i : MIssue) :
    ∃ res, Ev.nodeAttempt i.id res ∈ (migrateIssue cfg create m i).2 := by
  unfold migrateIssue
  cases hc : create (mapRedmineIssueToAdoFields cfg i.toRIssue).1
      (mapRedmineIssueToAdoFields cfg i.toRIssue).2 with
  | none => exact ⟨none, by simp [hc]⟩
  | some w => exact ⟨some w, by simp [hc]⟩

theorem createNodes_foldl_events (cfg : MapperConfig)
    (create : String → List (String × JValue) → Option Nat) :
    ∀ (issues : List MIssue) (m : List (Nat × Nat)) (ev : List Ev),
      ∃ extra,
        (issues.foldl (fun st i =>
          let r := migrateIssue cfg create st.1 i
          (r.1, st.2 ++ r.2)) (m, ev)).2 = ev ++ extra ∧
        (∀ l, Ev.linkCreate l ∉ extra) ∧
        (∀ i ∈ issues, ∃ res, Ev.nodeAttempt i.id res ∈ extra) := by
  intro issues
  induction issues with
  | nil =>
    intro m ev
    exact ⟨[], by simp, by simp, by simp⟩
  | cons i rest ih =>
    intro m ev
    obtain ⟨extra, hev, hnl, hna⟩ :=
      ih (migrateIssue cfg create m i).1 (ev ++ (migrateIssue cfg create m i).2)
    refine ⟨(migrateIssue cfg create m i).2 ++ extra, ?_, ?_, ?_⟩
    · rw [List.foldl_cons]
      exact hev.trans (by rw [List.append_assoc])
    · intro l hl
      rcases List.mem_append.mp hl with h | h
      · exact migrateIssue_no_link cfg create m i l h
      · exact hnl l h
    · intro j hj
      rcases List.mem_cons.mp hj with rfl | hj2
      · obtain ⟨res, hres⟩ := migrateIssue_node_attempt cfg create m j
        exact ⟨res, List.mem_append.mpr (Or.inl hres)⟩
      · obtain ⟨res, hres⟩ := hna j hj2
        exact ⟨res, List.mem_append.mpr (Or.inr hres)⟩

/-- C5: in a full-batch run the trace splits into a first segment containing
no link creation but a node-creation attempt for every fetched record,
followed by a segment of link creations only: no typed link (hierarchy or
relation) is created before node creation has been attempted for every
fetched record. -/
theorem phase_ordering (cfg : MapperConfig)
    (create : String → List (String × JValue) → Option Nat) (issues : List MIssue) :
    ∃ t1 t2, migrateAllIssuesTrace cfg create issues = t1 ++ t2 ∧
      (∀ l, Ev.linkCreate l ∉ t1) ∧
      (∀ i ∈ issues, ∃ res, Ev.nodeAttempt i.id res ∈ t1) ∧
      (∀ e ∈ t2, ∃ l, e = Ev.linkCreate l) := by
  obtain ⟨extra, hev, hnl, hna⟩ := createNodes_foldl_events cfg create issues [] []
  have hev2 : (createNodes cfg create issues).2 = extra := by
    rw [createNodes_eq_foldl]
    simpa using hev
  refine ⟨(createNodes cfg create issues).2,
    (migrateRelations cfg (createNodes cfg create issues).1 issues).map Ev.linkCreate,
    rfl, ?_, ?_, ?_⟩
  · intro l hl
    rw [hev2] at hl
    exact hnl l hl
  · intro i hi
    obtain ⟨res, hres⟩ := hna i hi
    exact ⟨res, by rw [hev2]; exact hres⟩
  · intro e he
    obtain ⟨l, _, hl⟩ := List.mem_map.mp he
    exact ⟨l, hl.symm⟩

end RM

namespace RM

theorem pagesUpTo_succ (src : RSource) (n : Nat) :
    pagesUpTo src (n + 1) = pagesUpTo src n ++ src.page (100 * n) := by
  unfold pagesUpTo
  rw [List.range_succ]
  simp

theorem getAllIssuesGo_spec (src : RSource) :
    ∀ (fuel j : Nat),
      src.total ≤ (pagesUpTo src j).length + 100 * fuel →
      ∃ k, j ≤ k ∧ stopsAt src k ∧ (∀ i, j ≤ i → i < k → ¬ stopsAt src i) ∧
        getAllIssuesGo src (fuel + 1) (100 * j) (pagesUpTo src j) =
          some (pagesUpTo src (k + 1)) := by
  intro fuel
  induction fuel with
  | zero =>
    intro j hle
    have hstop : stopsAt src j := by
      right
      rw [pagesUpTo_succ, List.length_append]
      omega
    refine ⟨j, le_refl j, hstop, by omega, ?_⟩
    simp only [getAllIssuesGo]
    rw [← pagesUpTo_succ, if_pos (show (src.page (100 * j)).length < 100 ∨
        src.total ≤ (pagesUpTo src (j + 1)).length from hstop)]
  | succ f ih =>
    intro j hle
    by_cases hstop : stopsAt src j
    · refine ⟨j, le_refl j, hstop, by omega, ?_⟩
      simp only [getAllIssuesGo]
      rw [← pagesUpTo_succ, if_pos (show (src.page (100 * j)).length < 100 ∨
          src.total ≤ (pagesUpTo src (j + 1)).length from hstop)]
    · have hstop2 := hstop
      unfold stopsAt at hstop2
      push_neg at hstop2
      obtain ⟨hlen, hlt2⟩ := hstop2
      have hlen2 : (pagesUpTo src (j + 1)).length =
          (pagesUpTo src j).length + (src.page (100 * j)).length := by
        rw [pagesUpTo_succ, List.length_append]
      obtain ⟨k, hk1, hk2, hk3, hk4⟩ := ih (j + 1) (by omega)
      refine ⟨k, by omega, hk2, ?_, ?_⟩
      · intro i hi1 hi2
        rcases Nat.eq_or_lt_of_le hi1 with heq | hlt
        · exact heq ▸ hstop
        · exact hk3 i hlt hi2
      · simp only [getAllIssuesGo]
        rw [← pagesUpTo_succ, if_neg (show ¬ ((src.page (100 * j)).length < 100 ∨
            src.total ≤ (pagesUpTo src (j + 1)).length) from by push_neg; exact ⟨by omega, hlt2⟩)]
        have harith : 100 * j + 100 = 100 * (j + 1) := by ring
        rw [harith]
        exact hk4

/-- C8: the pagination loop of `getAllIssues` terminates with the
concatenation of the fetched pages, stopping exactly at the first iteration
whose page is shorter than the requested size of 100 or whose cumulative
count reaches the reported total.  In the embedding the reported total is a
fixed value of the source, which makes the loop unconditionally
well-founded — subsuming the claim's precondition — and the shown fuel is
sufficient. -/
theorem getAllIssues_pagination (src : RSource) :
    ∃ k, stopsAt src k ∧ (∀ i, i < k → ¬ stopsAt src i) ∧
      getAllIssues src (src.total / 100 + 2) = some (pagesUpTo src (k + 1)) := by
  have hmod := Nat.div_add_mod src.total 100
  have hm : src.total % 100 < 100 := Nat.mod_lt src.total (by omega)
  have h0 : src.total ≤ (pagesUpTo src 0).length + 100 * (src.total / 100 + 1) := by
    have hz : (pagesUpTo src 0).length = 0 := by simp [pagesUpTo]
    omega
  obtain ⟨k, _, hk2, hk3, hk4⟩ := getAllIssuesGo_spec src (src.total / 100 + 1) 0 h0
  exact ⟨k, hk2, fun i hi => hk3 i (by omega) hi, hk4⟩

end RM
